import Mathlib

/-!
Shallow embedding of `TimerLib.c` / `TimerLib.h` (a wrap-safe timer library
for a free-running hardware counter) and verification of its specification.

Machine integers are modelled as `Nat` with explicit reduction modulo `2^32`
(`uint32_t`) or `2^64` (`uint64_t`) exactly where the C arithmetic wraps.
The hardware counter read (`get_current_cnt`, an external capability) is a
`raw` parameter supplied to each operation; the global variables
(`arr_value`, `clock_freq`, `overflow_counter`, the `optim` cache) and the
caller-owned `TimerLib_Handle` records (addressed by an index, as the C code
addresses them by pointer) form an explicit state `Mem` threaded through the
operations.  C division, whose behaviour is undefined for a zero divisor, is
modelled by `cdiv` (returning `none` on a zero divisor) at the one place the
source divides by a runtime value during initialisation.
-/

/-- Modulus of `uint32_t` arithmetic, `2^32`. -/
def W32 : Nat := 4294967296

/-- Modulus of `uint64_t` arithmetic, `2^64`. -/
def W64 : Nat := 18446744073709551616

/-- `uint32_t` addition. -/
def add32 (a b : Nat) : Nat := (a + b) % W32

/-- `uint32_t` subtraction (two's-complement wraparound). -/
def sub32 (a b : Nat) : Nat := (a + (W32 - b % W32)) % W32

/-- `uint32_t` multiplication. -/
def mul32 (a b : Nat) : Nat := a * b % W32

/-- `uint64_t` multiplication. -/
def mul64 (a b : Nat) : Nat := a * b % W64

/-- `uint64_t` addition. -/
def add64 (a b : Nat) : Nat := (a + b) % W64

/-- C division: undefined behaviour (modelled as `none`) on a zero divisor. -/
def cdiv (a b : Nat) : Option Nat := if b = 0 then none else some (a / b)

/-- The `TimerLib_Handle` struct of `TimerLib.h`. -/
structure TimerLib_Handle where
  last_cnt : Nat
  last_overflow : Nat
  deriving DecidableEq

/-- A consistent `(rawCount, overflowCount)` snapshot as produced by the
retry-until-stable sampling loops of the source. -/
structure Sample where
  raw : Nat
  ovf : Nat
  deriving DecidableEq

/-- The `optim` parameter-cache struct of `TimerLib.c`. -/
structure Optim where
  us_optimized : Bool
  us_per_tick : Nat
  ns_optimized : Bool
  ns_per_tick : Nat
  overflowPreMS : Nat
  deriving DecidableEq

/-- The mutable state of the library: the file-scope globals of `TimerLib.c`
plus the caller-owned handles, addressed by an index standing for the C
pointer passed to each call. -/
structure Mem where
  arr_value : Nat
  clock_freq : Nat
  overflow_counter : Nat
  optim : Optim
  heap : Nat → TimerLib_Handle

/-- Zero-initialised state (C static storage starts zeroed). -/
def mem0 : Mem :=
  { arr_value := 0
    clock_freq := 0
    overflow_counter := 0
    optim := { us_optimized := false, us_per_tick := 0,
               ns_optimized := false, ns_per_tick := 0, overflowPreMS := 0 }
    heap := fun _ => { last_cnt := 0, last_overflow := 0 } }

/-- `TimerLib_GlobalInit` of `TimerLib.c` (lines 55-80).  Stores `arr` and
`clk_freq`, zeroes the overflow counter, and fills the `optim` cache.  The
division `clk_freq / arr_value` is the only division by a runtime value: it
is undefined (here `none`) when `arr = 0`.  `ns_per_tick` is assigned only
when `ns_optimized` holds, exactly as in the source. -/
def TimerLib_GlobalInit (arr clk_freq : Nat) (m : Mem) : Option Mem :=
  match cdiv clk_freq arr with
  | none => none
  | some q =>
    some { m with
      arr_value := arr
      clock_freq := clk_freq
      overflow_counter := 0
      optim :=
        { us_optimized := clk_freq % 1000000 == 0
          us_per_tick := clk_freq / 1000000
          ns_optimized := clk_freq % 1000000000 == 0
          ns_per_tick := if clk_freq % 1000000000 == 0 then clk_freq / 1000000000
                         else m.optim.ns_per_tick
          overflowPreMS := q / 1000 } }

/-- `TimerLib_InitHandle` (lines 82-96): stores the consistent snapshot
`(raw, overflow_counter)` into the caller's handle. -/
def TimerLib_InitHandle (m : Mem) (i raw : Nat) : Mem :=
  { m with heap := Function.update m.heap i ⟨raw, m.overflow_counter⟩ }

/-- `TimerLib_HandleUpdateIRQ` (lines 98-101): `overflow_counter++`. -/
def TimerLib_HandleUpdateIRQ (m : Mem) : Mem :=
  { m with overflow_counter := add32 m.overflow_counter 1 }

/-- `calculate_ticks` (lines 103-132): rollover-aware delta between the
handle's baseline and the current consistent snapshot `(raw,
overflow_counter)`, in `uint32_t` arithmetic; updates the handle's baseline
to the current snapshot (reset-on-read) and returns the delta. -/
def calculate_ticks (m : Mem) (i raw : Nat) : Mem × Nat :=
  let current_ovf := m.overflow_counter
  let h := m.heap i
  let dc :=
    if h.last_cnt ≤ raw then
      (sub32 raw h.last_cnt, sub32 current_ovf h.last_overflow)
    else
      (add32 (sub32 m.arr_value h.last_cnt) raw,
       sub32 (sub32 current_ovf h.last_overflow) 1)
  ({ m with heap := Function.update m.heap i ⟨raw, current_ovf⟩ },
   add32 (mul32 dc.2 m.arr_value) dc.1)

/-- The section-4.3 rollover arithmetic applied to an explicit baseline
sample: exactly the delta computation of `calculate_ticks`, with the
baseline passed as a value instead of read from a handle. -/
def rollover_ticks (arr : Nat) (b s : Sample) : Nat :=
  if b.raw ≤ s.raw then
    add32 (mul32 (sub32 s.ovf b.ovf) arr) (sub32 s.raw b.raw)
  else
    add32 (mul32 (sub32 (sub32 s.ovf b.ovf) 1) arr)
      (add32 (sub32 arr b.raw) s.raw)

/-- `calculate_Timestamp` (lines 134-148): cumulative tick count
`(uint64_t)overflow_counter * arr_value + raw` in `uint64_t` arithmetic. -/
def calculate_Timestamp (m : Mem) (raw : Nat) : Nat :=
  add64 (mul64 m.overflow_counter m.arr_value) raw

/-- Microsecond conversion of an interval tick count, as inlined in
`TimerLib_GetInterval_us` (lines 183-192); the result passes through the
`uint32_t` return type. -/
def interval_us_of_ticks (m : Mem) (ticks : Nat) : Nat :=
  (if m.optim.us_optimized then ticks / m.optim.us_per_tick
   else mul64 ticks 1000000 / m.clock_freq) % W32

/-- Nanosecond conversion of an interval tick count, as inlined in
`TimerLib_GetInterval_ns` (lines 216-225); `uint32_t` return. -/
def interval_ns_of_ticks (m : Mem) (ticks : Nat) : Nat :=
  (if m.optim.ns_optimized then ticks / m.optim.ns_per_tick
   else mul64 ticks 1000000000 / m.clock_freq) % W64 % W32

/-- Microsecond conversion of a cumulative (`uint64_t`) tick count, as
inlined in `TimerLib_GetTimestamp_us` (lines 150-159); `uint64_t` return. -/
def timestamp_us_of_ticks (m : Mem) (ticks : Nat) : Nat :=
  if m.optim.us_optimized then ticks / m.optim.us_per_tick
  else mul64 ticks 1000000 / m.clock_freq

/-- `TimerLib_GetTimestamp_us` (lines 150-159). -/
def TimerLib_GetTimestamp_us (m : Mem) (raw : Nat) : Nat :=
  timestamp_us_of_ticks m (calculate_Timestamp m raw)

/-- `TimerLib_GetInterval_us` (lines 183-192): `calculate_ticks` on the
caller's handle, then microsecond conversion. -/
def TimerLib_GetInterval_us (m : Mem) (i raw : Nat) : Mem × Nat :=
  let r := calculate_ticks m i raw
  (r.1, interval_us_of_ticks m r.2)

/-- `TimerLib_GetInterval_ns` (lines 216-225). -/
def TimerLib_GetInterval_ns (m : Mem) (i raw : Nat) : Mem × Nat :=
  let r := calculate_ticks m i raw
  (r.1, interval_ns_of_ticks m r.2)

/-- State effect of `TimerLib_GetInterval_sf` (lines 194-203); its
floating-point return value is outside the integer model. -/
def TimerLib_GetInterval_sf_state (m : Mem) (i raw : Nat) : Mem :=
  (calculate_ticks m i raw).1

/-- State effect of `TimerLib_GetInterval_df` (lines 205-214); its
floating-point return value is outside the integer model. -/
def TimerLib_GetInterval_df_state (m : Mem) (i raw : Nat) : Mem :=
  (calculate_ticks m i raw).1

/-- Elapsed-tick computation of the delay spin loops of `TimerLib_DelayNS`
(lines 252-262), `TimerLib_DelayUS` (lines 299-310) and
`TimerLib_DelayUS_32` (lines 345-355): branches on overflow-count equality
with the start sample; the whole right-hand side is `uint32_t` arithmetic. -/
def delay_elapsed (arr : Nat) (start s : Sample) : Nat :=
  if s.ovf = start.ovf then sub32 s.raw start.raw
  else
    add32 (add32 (sub32 arr start.raw)
      (mul32 (sub32 (sub32 s.ovf start.ovf) 1) arr)) s.raw

/-- The `while (1)` polling loop shared by `TimerLib_DelayNS`,
`TimerLib_DelayUS` and `TimerLib_DelayUS_32`, run over a finite trace of
consistent snapshots: returns the index of the snapshot at which the loop
breaks, or `none` if the loop is still spinning when the trace ends. -/
def delay_spin (arr : Nat) (start : Sample) (target : Nat) :
    List Sample → Option Nat
  | [] => none
  | s :: rest =>
    if target ≤ delay_elapsed arr start s then some 0
    else Option.map (fun n => n + 1) (delay_spin arr start target rest)

/-- Target tick count of `TimerLib_DelayNS` (line 237):
`(uint64_t)ns * clock_freq / 1000000000`. -/
def delayTicksNS (m : Mem) (ns : Nat) : Nat :=
  mul64 ns m.clock_freq / 1000000000

/-- Target tick count of `TimerLib_DelayUS` (lines 280-288): the exact path
multiplies in `uint32_t`, the scaled path in `uint64_t`. -/
def delayTicksUS (m : Mem) (us : Nat) : Nat :=
  if m.optim.us_optimized then mul32 us m.optim.us_per_tick
  else mul64 us m.clock_freq / 1000000

/-- Target tick count of `TimerLib_DelayUS_32` (lines 326-334): both paths
are entirely `uint32_t` arithmetic. -/
def delayTicksUS32 (m : Mem) (us : Nat) : Nat :=
  if m.optim.us_optimized then mul32 us m.optim.us_per_tick
  else mul32 us m.clock_freq / 1000000

/-- `TimerLib_DelayNS` (lines 227-267) over a snapshot trace. -/
def TimerLib_DelayNS (m : Mem) (ns : Nat) (start : Sample)
    (trace : List Sample) : Option Nat :=
  delay_spin m.arr_value start (delayTicksNS m ns) trace

/-- `TimerLib_DelayUS` (lines 269-315) over a snapshot trace. -/
def TimerLib_DelayUS (m : Mem) (us : Nat) (start : Sample)
    (trace : List Sample) : Option Nat :=
  delay_spin m.arr_value start (delayTicksUS m us) trace

/-- `TimerLib_DelayUS_32` (lines 317-360) over a snapshot trace. -/
def TimerLib_DelayUS_32 (m : Mem) (us : Nat) (start : Sample)
    (trace : List Sample) : Option Nat :=
  delay_spin m.arr_value start (delayTicksUS32 m us) trace

/-- Simplified at-most-one-wrap elapsed computation of
`TimerLib_DelayUS_32Short` (lines 389-397). -/
def short_elapsed (arr : Nat) (start s : Sample) : Nat :=
  if start.ovf < s.ovf then add32 (sub32 arr start.raw) s.raw
  else sub32 s.raw start.raw

/-- The polling loop of `TimerLib_DelayUS_32Short`, over a snapshot trace. -/
def short_spin (arr : Nat) (start : Sample) (target : Nat) :
    List Sample → Option Nat
  | [] => none
  | s :: rest =>
    if target ≤ short_elapsed arr start s then some 0
    else Option.map (fun n => n + 1) (short_spin arr start target rest)

/-- `TimerLib_DelayUS_32Short` (lines 362-403): rejects the request with
`-1` unless `us_optimized`, `us < 1000` and `overflowPreMS <= 1` all hold;
otherwise spins with the simplified formula and returns `0`.  `none` means
the spin loop is still running when the trace ends. -/
def TimerLib_DelayUS_32Short (m : Mem) (us : Nat) (start : Sample)
    (trace : List Sample) : Option Int :=
  if m.optim.us_optimized = true ∧ us < 1000 ∧ m.optim.overflowPreMS ≤ 1 then
    match short_spin m.arr_value start (mul32 us m.optim.us_per_tick) trace with
    | some _ => some 0
    | none => none
  else some (-1)

/-- Number of `TimerLib_HandleUpdateIRQ` overflow notifications delivered
strictly before instant `t`, for a notification timeline `ev`. -/
def ovfAt (ev : Nat → Bool) (t : Nat) : Nat :=
  ((List.range t).filter ev).length

/-- One pass of the read-count-reread retry protocol of the sampling loops
(for instance lines 107-112): read `overflow_counter` at instant `t1`, the
hardware counter `hw` at instant `t2`, re-read `overflow_counter` at `t3`;
deliver the pair if the two overflow reads agree, otherwise retry
(`none`). -/
def atomic_sample (hw : Nat → Nat) (ev : Nat → Bool) (t1 t2 t3 : Nat) :
    Option Sample :=
  if ovfAt ev t1 = ovfAt ev t3 then some { raw := hw t2, ovf := ovfAt ev t1 }
  else none

/-! ## Concrete states used by witnesses and counterexamples -/

/-- 1 MHz clock with reload 1000: `us_optimized`, `us_per_tick = 1`,
`overflowPreMS = 1`. -/
def memA : Mem := (TimerLib_GlobalInit 1000 1000000 mem0).getD mem0

/-- 3 Hz clock with reload 10: neither conversion is exact. -/
def memB : Mem := (TimerLib_GlobalInit 10 3 mem0).getD mem0

/-- Reload 100, baseline sample (95, 7), current overflow count 8: the
synthetic one-wrap example of the specification. -/
def memC1 : Mem :=
  { mem0 with arr_value := 100, overflow_counter := 8, heap := fun _ => ⟨95, 7⟩ }

/-- 8 MHz clock with reload 8000: `us_optimized`, `us_per_tick = 8`. -/
def memD : Mem := (TimerLib_GlobalInit 8000 8000000 mem0).getD mem0

/-- Reload `2^31`, three overflows since the zero baseline: the exact
rollover delta `3 * 2^31` does not fit in `uint32_t`. -/
def memE : Mem := { mem0 with arr_value := 2147483648, overflow_counter := 3 }

/-- The 1 MHz configuration after five overflow notifications. -/
def memC6 : Mem := { memA with overflow_counter := 5 }

/-- A hardware counter timeline wrapping every 5 instants. -/
def hwA : Nat → Nat := fun t => t % 5

/-- Its overflow-notification timeline: one event per wrap, at `t % 5 = 4`. -/
def evA : Nat → Bool := fun t => t % 5 == 4

/-! ## Arithmetic helpers -/

lemma W32_pos : 0 < W32 := by decide

lemma add32_lt (a b : Nat) : add32 a b < W32 := Nat.mod_lt _ W32_pos

lemma sub32_lt (a b : Nat) : sub32 a b < W32 := Nat.mod_lt _ W32_pos

lemma mul32_lt (a b : Nat) : mul32 a b < W32 := Nat.mod_lt _ W32_pos

lemma sub32_eq {a b : Nat} (hba : b ≤ a) (ha : a < W32) : sub32 a b = a - b := by
  unfold sub32 W32 at *
  omega

lemma add32_eq {a b : Nat} (h : a + b < W32) : add32 a b = a + b := by
  unfold add32 W32 at *
  omega

lemma mul32_eq {a b : Nat} (h : a * b < W32) : mul32 a b = a * b :=
  Nat.mod_eq_of_lt h

lemma mul64_eq {a b : Nat} (h : a * b < W64) : mul64 a b = a * b :=
  Nat.mod_eq_of_lt h

lemma add64_eq {a b : Nat} (h : a + b < W64) : add64 a b = a + b :=
  Nat.mod_eq_of_lt h

/-! ## C2 -/

/-- C2: `TimerLib_GlobalInit` does not validate its arguments.  With
`reload = 0` it reaches the division `clk_freq / arr_value` by zero
(undefined behaviour, `none` in the model) instead of signaling a
configuration error, and with `frequencyHz = 0` it returns normally with no
error indication at all. -/
theorem globalInit_reaches_div_by_zero :
    TimerLib_GlobalInit 0 1000000 mem0 = none ∧
    (TimerLib_GlobalInit 16 0 mem0).isSome = true :=
  ⟨rfl, rfl⟩

/-! ## C10 -/

/-- C10: after any successful `TimerLib_GlobalInit` with a positive clock
frequency, the exact-path divisors are nonzero: `us_optimized` implies
`us_per_tick ≥ 1` and `ns_optimized` implies `ns_per_tick ≥ 1` (and the
scaled-path divisor `clock_freq` is positive), so the divisions
`ticks / us_per_tick` and `ticks / ns_per_tick` performed by the interval
and timestamp getters never divide by zero. -/
theorem globalInit_exact_divisors_pos (arr f : Nat) (m mi : Mem)
    (hf : 0 < f) (h : TimerLib_GlobalInit arr f m = some mi) :
    (mi.optim.us_optimized = true → 1 ≤ mi.optim.us_per_tick) ∧
    (mi.optim.ns_optimized = true → 1 ≤ mi.optim.ns_per_tick) ∧
    0 < mi.clock_freq := by
  by_cases ha : arr = 0
  · rw [TimerLib_GlobalInit, cdiv, if_pos ha] at h
    exact absurd h (by simp)
  · rw [TimerLib_GlobalInit, cdiv, if_neg ha] at h
    injection h with h
    subst h
    refine ⟨?_, ?_, hf⟩
    · intro hus
      have hdvd : f % 1000000 = 0 := by simpa using hus
      have hle : 1000000 ≤ f := Nat.le_of_dvd hf (Nat.dvd_of_mod_eq_zero hdvd)
      exact (Nat.one_le_div_iff (by norm_num)).2 hle
    · intro hns
      have hdvd : f % 1000000000 = 0 := by simpa using hns
      have hle : 1000000000 ≤ f := Nat.le_of_dvd hf (Nat.dvd_of_mod_eq_zero hdvd)
      show 1 ≤ (if (f % 1000000000 == 0) = true then f / 1000000000
                else m.optim.ns_per_tick)
      rw [if_pos (by simpa using hdvd)]
      exact (Nat.one_le_div_iff (by norm_num)).2 hle

/-- Closed instance of C10 at `arr = 1000`, `f = 1000000`. -/
theorem globalInit_exact_divisors_pos_witness :
    (memA.optim.us_optimized = true → 1 ≤ memA.optim.us_per_tick) ∧
    (memA.optim.ns_optimized = true → 1 ≤ memA.optim.ns_per_tick) ∧
    0 < memA.clock_freq :=
  globalInit_exact_divisors_pos 1000 1000000 mem0 memA (by decide) rfl

/-! ## C1 -/

/-- C1 (amended): for every handle whose baseline is a valid sample
(`baseline.raw < reload`) and every current consistent sample taken no
earlier than the baseline, `calculate_ticks` returns the claimed rollover
formula — `(Δovf) * reload + (raw1 - raw0)` without a raw regression,
`(Δovf - 1) * reload + (reload - raw0) + raw1` with one — reduced modulo
`2^32` by its `uint32_t` arithmetic (equal to the exact formula whenever it
fits in 32 bits). -/
theorem calculate_ticks_rollover_formula (m : Mem) (i raw : Nat)
    (harr : m.arr_value < W32) (hraw : raw < W32)
    (hb : (m.heap i).last_cnt < m.arr_value)
    (hov : m.overflow_counter < W32)
    (hord : (m.heap i).last_overflow
      + (if raw < (m.heap i).last_cnt then 1 else 0) ≤ m.overflow_counter) :
    (calculate_ticks m i raw).2 =
      (if (m.heap i).last_cnt ≤ raw then
        (m.overflow_counter - (m.heap i).last_overflow) * m.arr_value
          + (raw - (m.heap i).last_cnt)
       else
        (m.overflow_counter - (m.heap i).last_overflow - 1) * m.arr_value
          + (m.arr_value - (m.heap i).last_cnt) + raw) % W32 := by
  have hbo : (m.heap i).last_overflow ≤ m.overflow_counter := by
    by_cases hc : raw < (m.heap i).last_cnt <;> simp [hc] at hord <;> omega
  simp only [calculate_ticks]
  by_cases hc : (m.heap i).last_cnt ≤ raw
  · rw [if_pos hc, if_pos hc]
    rw [sub32_eq hbo hov, sub32_eq hc hraw]
    unfold add32 mul32
    generalize (m.overflow_counter - (m.heap i).last_overflow) * m.arr_value = P
    unfold W32
    omega
  · rw [if_neg hc, if_neg hc]
    push_neg at hc
    rw [if_pos hc] at hord
    rw [sub32_eq hbo hov,
        sub32_eq (show 1 ≤ m.overflow_counter - (m.heap i).last_overflow by omega)
          (by omega),
        sub32_eq (le_of_lt hb) harr,
        add32_eq (show m.arr_value - (m.heap i).last_cnt + raw < W32 by omega)]
    unfold add32 mul32
    generalize (m.overflow_counter - (m.heap i).last_overflow - 1) * m.arr_value = P
    unfold W32
    omega

/-- Closed instance of C1: the synthetic one-wrap example `raw0 = reload-5`,
`raw1 = 3`, `overflow+1` (reload 100, baseline `(95, 7)`, current overflow
count 8) yields `5 + 3 = 8` elapsed ticks. -/
theorem calculate_ticks_rollover_formula_witness :
    (calculate_ticks memC1 0 3).2 = 8 := by
  have h := calculate_ticks_rollover_formula memC1 0 3 (by decide) (by decide)
    (by decide) (by decide) (by decide)
  rw [h]
  decide

/-- C1 counterexample to the unamended claim: with reload `2^31`, a zero
baseline and three overflows, the exact formula gives `3 * 2^31 =
6442450944`, but `calculate_ticks` computes in `uint32_t` and returns
`2147483648`. -/
theorem calculate_ticks_not_exact_formula :
    (calculate_ticks memE 0 0).2 ≠
      (memE.overflow_counter - (memE.heap 0).last_overflow) * memE.arr_value
        + (0 - (memE.heap 0).last_cnt) := by decide

/-! ## C3 -/

/-- C3 (amended): for every 32-bit interval tick count, the microsecond and
nanosecond interval conversions return the exact quotient `ticks / perTick`
on the exact path and otherwise `floor(ticks * scale / frequencyHz)`
computed in 64-bit — the widened multiplication never overflows for 32-bit
ticks — reduced modulo `2^32` by the `uint32_t` return type;
`TimerLib_GetTimestamp_us` applies the same choice to its 64-bit cumulative
tick count, where the scaled path multiplies modulo `2^64` (exact whenever
`ticks * 1000000 < 2^64`); the getters are these conversions composed with
`calculate_ticks` respectively `calculate_Timestamp`. -/
theorem interval_conversions_widened (m : Mem) (ticks t64 : Nat)
    (h32 : ticks < W32) (h64 : t64 < W64) :
    interval_us_of_ticks m ticks =
      (if m.optim.us_optimized = true then ticks / m.optim.us_per_tick
       else ticks * 1000000 / m.clock_freq % W32) ∧
    ticks * 1000000 < W64 ∧
    interval_ns_of_ticks m ticks =
      (if m.optim.ns_optimized = true then ticks / m.optim.ns_per_tick
       else ticks * 1000000000 / m.clock_freq % W32) ∧
    ticks * 1000000000 < W64 ∧
    timestamp_us_of_ticks m t64 =
      (if m.optim.us_optimized = true then t64 / m.optim.us_per_tick
       else t64 * 1000000 % W64 / m.clock_freq) ∧
    (t64 * 1000000 < W64 →
      timestamp_us_of_ticks m t64 =
        (if m.optim.us_optimized = true then t64 / m.optim.us_per_tick
         else t64 * 1000000 / m.clock_freq)) ∧
    (∀ i raw, TimerLib_GetInterval_us m i raw =
      ((calculate_ticks m i raw).1,
        interval_us_of_ticks m (calculate_ticks m i raw).2)) ∧
    (∀ i raw, TimerLib_GetInterval_ns m i raw =
      ((calculate_ticks m i raw).1,
        interval_ns_of_ticks m (calculate_ticks m i raw).2)) ∧
    (∀ raw, TimerLib_GetTimestamp_us m raw =
      timestamp_us_of_ticks m (calculate_Timestamp m raw)) := by
  have h6 : ticks * 1000000 < W64 := by unfold W32 W64 at *; omega
  have h9 : ticks * 1000000000 < W64 := by unfold W32 W64 at *; omega
  refine ⟨?_, h6, ?_, h9, ?_, ?_, fun i raw => rfl, fun i raw => rfl,
    fun raw => rfl⟩
  · unfold interval_us_of_ticks
    by_cases hus : m.optim.us_optimized = true
    · rw [if_pos hus, if_pos hus]
      exact Nat.mod_eq_of_lt (lt_of_le_of_lt (Nat.div_le_self _ _) h32)
    · rw [if_neg hus, if_neg hus, mul64_eq h6]
  · unfold interval_ns_of_ticks
    by_cases hns : m.optim.ns_optimized = true
    · rw [if_pos hns, if_pos hns]
      have hd : ticks / m.optim.ns_per_tick ≤ ticks := Nat.div_le_self _ _
      have hw : W32 < W64 := by unfold W32 W64; omega
      rw [Nat.mod_eq_of_lt (lt_of_le_of_lt hd (lt_trans h32 hw)),
          Nat.mod_eq_of_lt (lt_of_le_of_lt hd h32)]
    · rw [if_neg hns, if_neg hns, mul64_eq h9,
          Nat.mod_eq_of_lt (lt_of_le_of_lt (Nat.div_le_self _ _) h9)]
  · rfl
  · intro hfit
    unfold timestamp_us_of_ticks
    by_cases hus : m.optim.us_optimized = true
    · rw [if_pos hus, if_pos hus]
    · rw [if_neg hus, if_neg hus, mul64_eq hfit]

/-- Closed instance of C3: under the 8 MHz exact configuration
(`us_per_tick = 8`), 8 ticks convert to exactly 1 microsecond. -/
theorem interval_conversions_widened_witness :
    interval_us_of_ticks memD 8 = 1 := by
  have h := (interval_conversions_widened memD 8 8 (by decide) (by decide)).1
  rw [h]
  decide

/-- C3 counterexample to the unamended claim: at 3 Hz (scaled path) and
ticks `2^32 - 1`, the mathematical `floor(ticks * 10^6 / 3) =
1431655765000000` exceeds `2^32`, so the `uint32_t` return of
`TimerLib_GetInterval_us` truncates it. -/
theorem interval_us_truncates :
    interval_us_of_ticks memB 4294967295 ≠
      4294967295 * 1000000 / memB.clock_freq := by decide

/-! ## C4 -/

/-- Map by successor preserves `isSome`. -/
lemma isSome_map_succ (o : Option Nat) :
    (Option.map (fun n => n + 1) o).isSome = o.isSome := by
  cases o <;> rfl

/-- The short-delay polling loop completes within a trace exactly when some
snapshot of the trace reaches the target under the simplified formula. -/
lemma short_spin_isSome_iff (arr : Nat) (start : Sample) (T : Nat) :
    ∀ trace : List Sample, (short_spin arr start T trace).isSome = true ↔
      ∃ s ∈ trace, T ≤ short_elapsed arr start s := by
  intro trace
  induction trace with
  | nil => simp [short_spin]
  | cons s rest ih =>
    unfold short_spin
    by_cases hc : T ≤ short_elapsed arr start s
    · simp [hc]
    · rw [if_neg hc, isSome_map_succ, ih]
      constructor
      · rintro ⟨t, ht, hle⟩
        exact ⟨t, List.mem_cons_of_mem s ht, hle⟩
      · rintro ⟨t, ht, hle⟩
        rcases List.mem_cons.1 ht with rfl | hm
        · exact absurd hle hc
        · exact ⟨t, hm, hle⟩

/-- C4: whenever any of the three preconditions (`us_optimized`,
`us < 1000`, `overflowPreMS ≤ 1`) fails, `TimerLib_DelayUS_32Short` returns
`-1` for every trace — in particular for the empty trace, so its wait loop
and simplified formula are never run; when all three hold it returns `0`
exactly when some snapshot of the trace reaches the target
`us * us_per_tick` under the simplified at-most-one-wrap formula, and never
returns `-1`. -/
theorem delayUS32Short_guard (m : Mem) (us : Nat) (start : Sample)
    (trace : List Sample) :
    (¬(m.optim.us_optimized = true ∧ us < 1000 ∧ m.optim.overflowPreMS ≤ 1) →
      TimerLib_DelayUS_32Short m us start trace = some (-1)) ∧
    ((m.optim.us_optimized = true ∧ us < 1000 ∧ m.optim.overflowPreMS ≤ 1) →
      (TimerLib_DelayUS_32Short m us start trace = some 0 ↔
        ∃ s ∈ trace,
          mul32 us m.optim.us_per_tick ≤ short_elapsed m.arr_value start s) ∧
      TimerLib_DelayUS_32Short m us start trace ≠ some (-1)) := by
  constructor
  · intro hP
    unfold TimerLib_DelayUS_32Short
    rw [if_neg hP]
  · intro hP
    unfold TimerLib_DelayUS_32Short
    rw [if_pos hP]
    rcases hsp : short_spin m.arr_value start (mul32 us m.optim.us_per_tick) trace
      with _ | k
    · have hns := (short_spin_isSome_iff m.arr_value start
        (mul32 us m.optim.us_per_tick) trace)
      rw [hsp] at hns
      simp at hns
      constructor
      · constructor
        · intro h; exact absurd h (by simp)
        · intro ⟨s, hs, hle⟩; exact absurd hle (by simpa using hns s hs)
      · simp
    · have hys := (short_spin_isSome_iff m.arr_value start
        (mul32 us m.optim.us_per_tick) trace).1 (by rw [hsp]; rfl)
      constructor
      · exact ⟨fun _ => hys, fun _ => rfl⟩
      · simp

/-- Closed instance of C4 in the specification's own test configuration
(`us_optimized`, `overflowPreMS ≤ 1`): `DelayShortUS(999)` completes with
`0` once 999 ticks have elapsed, and `DelayShortUS(1500)` returns `-1`
even with an empty trace (no waiting). -/
theorem delayUS32Short_guard_witness :
    TimerLib_DelayUS_32Short memA 999 ⟨0, 0⟩ [⟨999, 0⟩] = some 0 ∧
    TimerLib_DelayUS_32Short memA 1500 ⟨0, 0⟩ [] = some (-1) := by
  constructor
  · exact ((delayUS32Short_guard memA 999 ⟨0, 0⟩ [⟨999, 0⟩]).2 (by decide)).1.2
      ⟨⟨999, 0⟩, by decide, by decide⟩
  · exact (delayUS32Short_guard memA 1500 ⟨0, 0⟩ []).1 (by decide)

/-! ## C5 -/

/-- The delay-loop elapsed computation agrees with the section-4.3 rollover
arithmetic on a local baseline whenever the current snapshot's overflow
count is at or after the baseline's (both being `uint32_t` values). -/
lemma delay_elapsed_eq_rollover (arr : Nat) (start s : Sample)
    (hbo : start.ovf ≤ s.ovf) (hso : s.ovf < W32) :
    delay_elapsed arr start s = rollover_ticks arr start s := by
  unfold delay_elapsed rollover_ticks
  have hD : sub32 s.ovf start.ovf = s.ovf - start.ovf := sub32_eq hbo hso
  by_cases he : s.ovf = start.ovf
  · rw [if_pos he]
    have hD0 : sub32 s.ovf start.ovf = 0 := by rw [hD, he, Nat.sub_self]
    rw [hD0]
    have h01 : sub32 0 1 = 4294967295 := by decide
    rw [h01]
    by_cases hr : start.raw ≤ s.raw
    · rw [if_pos hr]
      unfold sub32 add32 mul32 W32 at *
      omega
    · rw [if_neg hr]
      unfold sub32 add32 mul32 W32 at *
      omega
  · rw [if_neg he]
    rw [hD]
    have hD1 : 1 ≤ s.ovf - start.ovf := by omega
    rw [sub32_eq hD1 (by omega)]
    have hmul : (s.ovf - start.ovf - 1) * arr
        = (s.ovf - start.ovf) * arr - arr := by
      rw [Nat.sub_mul, one_mul]
    have hle : arr ≤ (s.ovf - start.ovf) * arr :=
      Nat.le_mul_of_pos_left arr (by omega)
    by_cases hr : start.raw ≤ s.raw
    · rw [if_pos hr]
      unfold sub32 add32 mul32 W32 at *
      omega
    · rw [if_neg hr]
      unfold sub32 add32 mul32 W32 at *
      omega

/-- When the delay polling loop breaks at trace position `k`, every earlier
snapshot was below the target and the one at `k` reached it. -/
lemma delay_spin_some (arr : Nat) (start : Sample) (T : Nat) :
    ∀ (trace : List Sample) (k : Nat), delay_spin arr start T trace = some k →
      k < trace.length ∧
      (∀ s ∈ trace.take k, delay_elapsed arr start s < T) ∧
      T ≤ delay_elapsed arr start (trace.getD k ⟨0, 0⟩) := by
  intro trace
  induction trace with
  | nil => intro k h; simp [delay_spin] at h
  | cons s rest ih =>
    intro k h
    unfold delay_spin at h
    by_cases hc : T ≤ delay_elapsed arr start s
    · rw [if_pos hc] at h
      injection h with h
      subst h
      refine ⟨by simp, by simp, by simpa using hc⟩
    · rw [if_neg hc] at h
      obtain ⟨k1, hk1, rfl⟩ := Option.map_eq_some'.1 h
      obtain ⟨h1, h2, h3⟩ := ih k1 hk1
      refine ⟨by simpa using h1, ?_, by simpa using h3⟩
      intro t ht
      rcases List.mem_cons.1 (by simpa using ht) with h | h
      · subst h; omega
      · exact h2 t h

/-- While no snapshot of the trace reaches the target, the delay polling
loop does not return. -/
lemma delay_spin_none (arr : Nat) (start : Sample) (T : Nat) :
    ∀ trace : List Sample, delay_spin arr start T trace = none →
      ∀ s ∈ trace, delay_elapsed arr start s < T := by
  intro trace
  induction trace with
  | nil => simp
  | cons s rest ih =>
    intro h t ht
    unfold delay_spin at h
    by_cases hc : T ≤ delay_elapsed arr start s
    · rw [if_pos hc] at h; exact absurd h (by simp)
    · rw [if_neg hc] at h
      rcases List.mem_cons.1 ht with rfl | hm
      · omega
      · exact ih (by simpa using h) t hm

/-- C5: the delay spin loop (shared by `TimerLib_DelayNS`,
`TimerLib_DelayUS` and `TimerLib_DelayUS_32`) breaks at position `k` of the
snapshot trace only if every earlier snapshot gave elapsed ticks strictly
below the target `T` and the snapshot at `k` reached `T` (so it returns at
the first such snapshot); if no snapshot reaches `T` it does not return;
the three delay functions are this loop at their respective targets; and
the loop's elapsed computation, applied to the locally captured start
sample, coincides with the section-4.3 rollover arithmetic
`rollover_ticks` for every snapshot at or after the baseline epoch. -/
theorem delay_spin_never_early (arr : Nat) (start : Sample) (T : Nat)
    (trace : List Sample) :
    (∀ k, delay_spin arr start T trace = some k →
      k < trace.length ∧
      (∀ s ∈ trace.take k, delay_elapsed arr start s < T) ∧
      T ≤ delay_elapsed arr start (trace.getD k ⟨0, 0⟩)) ∧
    (delay_spin arr start T trace = none →
      ∀ s ∈ trace, delay_elapsed arr start s < T) ∧
    (∀ (m : Mem) (ns us : Nat),
      TimerLib_DelayNS m ns start trace =
        delay_spin m.arr_value start (delayTicksNS m ns) trace ∧
      TimerLib_DelayUS m us start trace =
        delay_spin m.arr_value start (delayTicksUS m us) trace ∧
      TimerLib_DelayUS_32 m us start trace =
        delay_spin m.arr_value start (delayTicksUS32 m us) trace) ∧
    (∀ s : Sample, start.ovf ≤ s.ovf → s.ovf < W32 →
      delay_elapsed arr start s = rollover_ticks arr start s) :=
  ⟨fun k => delay_spin_some arr start T trace k,
   delay_spin_none arr start T trace,
   fun m ns us => ⟨rfl, rfl, rfl⟩,
   fun s hbo hso => delay_elapsed_eq_rollover arr start s hbo hso⟩

/-- Closed instance of C5: with reload 100, baseline `(95, 7)` and target 8,
the loop is still spinning at snapshot `(97, 7)` (2 ticks), breaks at
snapshot `(3, 8)` (8 ticks), and the loop's formula agrees with the
section-4.3 arithmetic there. -/
theorem delay_spin_never_early_witness :
    delay_elapsed 100 ⟨95, 7⟩ ⟨97, 7⟩ < 8 ∧
    8 ≤ delay_elapsed 100 ⟨95, 7⟩ ⟨3, 8⟩ ∧
    delay_elapsed 100 ⟨95, 7⟩ ⟨3, 8⟩ = rollover_ticks 100 ⟨95, 7⟩ ⟨3, 8⟩ := by
  obtain ⟨h1, h2, h3, h4⟩ :=
    delay_spin_never_early 100 ⟨95, 7⟩ 8 [⟨97, 7⟩, ⟨3, 8⟩]
  obtain ⟨hk, hbefore, hat⟩ := h1 1 (by decide)
  exact ⟨hbefore ⟨97, 7⟩ (by decide), hat, h4 ⟨3, 8⟩ (by decide) (by decide)⟩

/-! ## C6 -/

/-- C6: `calculate_Timestamp` computes the cumulative tick count
`overflowCount * reload + rawCount` exactly (its `uint64_t` arithmetic
cannot overflow for 32-bit inputs), and the absolute timestamp queries are
pure reads: both `calculate_Timestamp` and `TimerLib_GetTimestamp_us` are
independent of the handle heap — they take no handle, perform no
reset-on-read, and in the model return no modified state. -/
theorem timestamp_cumulative_no_reset (m : Mem) (raw : Nat)
    (ha : m.arr_value < W32) (ho : m.overflow_counter < W32) (hr : raw < W32) :
    calculate_Timestamp m raw = m.overflow_counter * m.arr_value + raw ∧
    (∀ g, calculate_Timestamp { m with heap := g } raw =
      calculate_Timestamp m raw) ∧
    (∀ g, TimerLib_GetTimestamp_us { m with heap := g } raw =
      TimerLib_GetTimestamp_us m raw) := by
  refine ⟨?_, fun g => rfl, fun g => rfl⟩
  unfold calculate_Timestamp
  have h1 : m.overflow_counter * m.arr_value ≤ 4294967295 * 4294967295 :=
    Nat.mul_le_mul (by unfold W32 at ho; omega) (by unfold W32 at ha; omega)
  rw [mul64_eq (by unfold W64 at *; omega),
      add64_eq (by unfold W64 W32 at *; omega)]

/-- Closed instance of C6: with `overflow_counter = 5` and reload 1000, the
cumulative tick count at raw count 97 is `5 * 1000 + 97`. -/
theorem timestamp_cumulative_no_reset_witness :
    calculate_Timestamp memC6 97
      = memC6.overflow_counter * memC6.arr_value + 97 :=
  (timestamp_cumulative_no_reset memC6 97 (by decide) (by decide)
    (by decide)).1

/-! ## C7 -/

/-- C7: every interval query (`calculate_ticks`, hence
`TimerLib_GetInterval_us`/`ns` and the state effect of the `sf`/`df`
variants) updates the given handle's baseline to exactly the sample it just
took (reset-on-read) and modifies nothing else — every other handle, the
configuration fields and the overflow counter are unchanged — so a query on
one handle leaves the result of a query on a different handle unchanged. -/
theorem interval_query_resets_only_its_handle (m : Mem) (i raw : Nat) :
    (calculate_ticks m i raw).1.heap i = ⟨raw, m.overflow_counter⟩ ∧
    (∀ j, j ≠ i → (calculate_ticks m i raw).1.heap j = m.heap j) ∧
    (calculate_ticks m i raw).1.arr_value = m.arr_value ∧
    (calculate_ticks m i raw).1.clock_freq = m.clock_freq ∧
    (calculate_ticks m i raw).1.overflow_counter = m.overflow_counter ∧
    (calculate_ticks m i raw).1.optim = m.optim ∧
    (TimerLib_GetInterval_us m i raw).1 = (calculate_ticks m i raw).1 ∧
    (TimerLib_GetInterval_ns m i raw).1 = (calculate_ticks m i raw).1 ∧
    TimerLib_GetInterval_sf_state m i raw = (calculate_ticks m i raw).1 ∧
    TimerLib_GetInterval_df_state m i raw = (calculate_ticks m i raw).1 ∧
    (∀ j raw2, j ≠ i →
      (TimerLib_GetInterval_us (TimerLib_GetInterval_us m j raw2).1 i raw).2 =
        (TimerLib_GetInterval_us m i raw).2) := by
  refine ⟨?_, ?_, rfl, rfl, rfl, rfl, rfl, rfl, rfl, rfl, ?_⟩
  · simp [calculate_ticks]
  · intro j hj
    simp [calculate_ticks, Function.update_noteq hj]
  · intro j raw2 hj
    simp [TimerLib_GetInterval_us, calculate_ticks, interval_us_of_ticks,
      Function.update_noteq (Ne.symm hj)]

/-- Closed instance of C7: querying handle 0 of `memA` at raw count 42 sets
its baseline to `(42, 0)`, leaves handle 1 untouched, and an interposed
query on handle 1 does not change handle 0's result. -/
theorem interval_query_resets_only_its_handle_witness :
    (calculate_ticks memA 0 42).1.heap 0 = ⟨42, 0⟩ ∧
    (calculate_ticks memA 0 42).1.heap 1 = memA.heap 1 ∧
    (TimerLib_GetInterval_us (TimerLib_GetInterval_us memA 1 7).1 0 42).2 =
      (TimerLib_GetInterval_us memA 0 42).2 := by
  obtain ⟨h1, h2, hrest⟩ := interval_query_resets_only_its_handle memA 0 42
  exact ⟨h1, h2 1 (by decide),
    hrest.2.2.2.2.2.2.2.2 1 7 (by decide)⟩

/-! ## C8 -/

/-- C8 (amended): `delayTicksUS` and `delayTicksUS32` compute the exact
path as the `uint32_t` product `us * us_per_tick mod 2^32` — equal to the
exact mathematical product exactly when it fits in 32 bits;
`TimerLib_DelayUS`'s scaled path computes `floor(us * frequencyHz / 10^6)`
in 64-bit arithmetic, whose multiplication never overflows for 32-bit
inputs, while `TimerLib_DelayUS_32`'s scaled path multiplies in `uint32_t`
as well. -/
theorem delay_target_ticks (m : Mem) (us : Nat)
    (hus : us < W32) (hf : m.clock_freq < W32) :
    delayTicksUS m us =
      (if m.optim.us_optimized = true then us * m.optim.us_per_tick % W32
       else us * m.clock_freq / 1000000) ∧
    delayTicksUS32 m us =
      (if m.optim.us_optimized = true then us * m.optim.us_per_tick % W32
       else us * m.clock_freq % W32 / 1000000) ∧
    us * m.clock_freq < W64 ∧
    (m.optim.us_optimized = true → us * m.optim.us_per_tick < W32 →
      delayTicksUS m us = us * m.optim.us_per_tick ∧
      delayTicksUS32 m us = us * m.optim.us_per_tick) := by
  have hb : us * m.clock_freq ≤ 4294967295 * 4294967295 :=
    Nat.mul_le_mul (by unfold W32 at hus; omega) (by unfold W32 at hf; omega)
  have hlt : us * m.clock_freq < W64 := by unfold W64 at *; omega
  refine ⟨?_, ?_, hlt, ?_⟩
  · unfold delayTicksUS
    by_cases ho : m.optim.us_optimized = true
    · rw [if_pos ho, if_pos ho]; rfl
    · rw [if_neg ho, if_neg ho, mul64_eq hlt]
  · unfold delayTicksUS32
    by_cases ho : m.optim.us_optimized = true
    · rw [if_pos ho, if_pos ho]; rfl
    · rw [if_neg ho, if_neg ho]; rfl
  · intro ho hfit
    unfold delayTicksUS delayTicksUS32
    rw [if_pos ho, if_pos ho]
    exact ⟨mul32_eq hfit, mul32_eq hfit⟩

/-- Closed instance of C8: under the 8 MHz exact configuration a 100 µs
delay targets exactly `100 * 8 = 800` ticks in both variants. -/
theorem delay_target_ticks_witness :
    delayTicksUS memD 100 = 800 ∧ delayTicksUS32 memD 100 = 800 :=
  (delay_target_ticks memD 100 (by decide) (by decide)).2.2.2
    (by decide) (by decide)

/-- C8 counterexample to the unamended claim: under the 8 MHz exact
configuration, `TimerLib_DelayUS`'s target for `us = 2^30` is the wrapped
`uint32_t` product `2^30 * 8 mod 2^32 = 0`, not the exact mathematical
product `2^33`. -/
theorem delayUS_target_wraps :
    delayTicksUS memD 1073741824 ≠
      1073741824 * memD.optim.us_per_tick := by decide

/-! ## C9 -/

/-- The overflow count delivered by `TimerLib_HandleUpdateIRQ` notifications
is monotone in time. -/
lemma ovfAt_mono (ev : Nat → Bool) {a b : Nat} (h : a ≤ b) :
    ovfAt ev a ≤ ovfAt ev b := by
  unfold ovfAt
  obtain ⟨c, rfl⟩ := Nat.exists_eq_add_of_le h
  rw [List.range_add, List.filter_append, List.length_append]
  omega

/-- C9: any sample delivered by the read-count-reread retry protocol under
concurrent overflow increments is the `(rawCount, overflowCount)` pair of
one consistent instant inside the sampling window: there is an instant `t`
between the two overflow-counter reads at which the hardware counter and
the overflow count are exactly the delivered pair — never a counter value
paired with the wrong overflow epoch. -/
theorem atomic_sample_consistent_pairing (hw : Nat → Nat) (ev : Nat → Bool)
    (t1 t2 t3 : Nat) (h12 : t1 ≤ t2) (h23 : t2 ≤ t3) (s : Sample)
    (hs : atomic_sample hw ev t1 t2 t3 = some s) :
    ∃ t, t1 ≤ t ∧ t ≤ t3 ∧ hw t = s.raw ∧ ovfAt ev t = s.ovf := by
  unfold atomic_sample at hs
  by_cases hc : ovfAt ev t1 = ovfAt ev t3
  · rw [if_pos hc] at hs
    injection hs with hs
    subst hs
    refine ⟨t2, h12, h23, rfl, ?_⟩
    show ovfAt ev t2 = ovfAt ev t1
    have m1 : ovfAt ev t1 ≤ ovfAt ev t2 := ovfAt_mono ev h12
    have m2 : ovfAt ev t2 ≤ ovfAt ev t3 := ovfAt_mono ev h23
    omega
  · rw [if_neg hc] at hs
    exact absurd hs (by simp)

/-- Closed instance of C9: for a counter wrapping every 5 instants with its
overflow notification at instant 4, the sample read over the window
`t1 = 0 ≤ t2 = 1 ≤ t3 = 2` is consistent at instant `t = 1`. -/
theorem atomic_sample_consistent_pairing_witness :
    ∃ t, 0 ≤ t ∧ t ≤ 2 ∧ hwA t = 1 ∧ ovfAt evA t = 0 :=
  atomic_sample_consistent_pairing hwA evA 0 1 2 (by decide) (by decide)
    ⟨1, 0⟩ (by decide)
